import Mathlib

/-
Verification development for the dumpany document-retrieval pipeline
(src/dumpany.py). Time is modelled as rational seconds; the shared mutable
globals of the Python module become explicit state records threaded through
the embedded functions. Console output is modelled as a list of structured
messages, file writes as a list of (path, body) pairs, and issued HTTP
requests as a timestamped trace.
-/

attribute [local semireducible] Rat.add Rat.sub Rat.mul Rat.inv Rat.ofScientific

namespace Dumpany

/- Rate limiting constants (src/dumpany.py lines 27-38). -/

def MAX_WORKERS : Nat := 5

def MIN_REQUEST_INTERVAL : ℚ := 0.6

def RATE_WINDOW : ℚ := 300

def WARN_THRESHOLD : Nat := 500

def PAUSE_THRESHOLD : Nat := 550

def EMERGENCY_THRESHOLD : Nat := 575

def MAX_REQUESTS : Nat := 600

/- RateLimiter (src/dumpany.py lines 52-76).  `requests` is the list of
recorded timestamps, oldest first, as appended by `wait_if_needed`. -/

structure RateLimiter where
  max_requests : Nat := 600
  time_window : ℚ := 300
  requests : List ℚ := []
  deriving DecidableEq

/- The pruning step of `wait_if_needed` (line 61): keep the timestamps `t`
with `now - t < time_window`. -/
def prune (time_window : ℚ) (requests : List ℚ) (now : ℚ) : List ℚ :=
  requests.filter (fun t => now - t < time_window)

/- `RateLimiter.wait_if_needed` (lines 58-72).  `now` is the wall-clock time
at entry (the Python `datetime.now()`).  Returns the updated limiter and the
wall-clock time at which the call returns (after any `time.sleep`).  Note
that line 72 appends the `now` captured at entry, not the post-sleep time,
and that after a capacity wait line 70 clears the whole list before the
append. -/
def wait_if_needed (rl : RateLimiter) (now : ℚ) : RateLimiter × ℚ :=
  let pruned := prune rl.time_window rl.requests now
  if rl.max_requests ≤ pruned.length then
    let oldest := pruned.headD 0
    let wait := rl.time_window - (now - oldest)
    if 0 < wait then
      ({ rl with requests := [now] }, now + wait)
    else
      ({ rl with requests := pruned ++ [now] }, now)
  else
    ({ rl with requests := pruned ++ [now] }, now)

/- `RateLimiter.reset` (lines 74-76). -/
def reset (rl : RateLimiter) : RateLimiter :=
  { rl with requests := [] }

/- A sequential trace of `wait_if_needed` calls.  `gaps` are the successive
delays between the return of one call and the entry of the next; the result
records the final limiter, the final time, and the wall-clock times at which
each call returned — the instants at which the admitted requests are
actually issued by the caller. -/
def runWait (rl : RateLimiter) (now : ℚ) : List ℚ → RateLimiter × ℚ × List ℚ
  | [] => (rl, now, [])
  | g :: gs =>
    let t := now + g
    let r := wait_if_needed rl t
    let rest := runWait r.1 r.2 gs
    (rest.1, rest.2.1, r.2 :: rest.2.2)

/- Basic lemmas about `wait_if_needed`. -/

theorem prune_eq_self (tw : ℚ) (l : List ℚ) (now : ℚ)
    (h : ∀ t ∈ l, now - t < tw) : prune tw l now = l := by
  unfold prune
  exact List.filter_eq_self.mpr (fun t ht => decide_eq_true (h t ht))

theorem prune_head_lt (tw : ℚ) (l : List ℚ) (now : ℚ)
    (h : prune tw l now ≠ []) : now - (prune tw l now).headD 0 < tw := by
  rcases hp : prune tw l now with _ | ⟨a, as⟩
  · exact absurd hp h
  · have ha : a ∈ prune tw l now := by rw [hp]; exact List.mem_cons_self a as
    have := List.of_mem_filter ha
    simpa using this

theorem wait_if_needed_under (rl : RateLimiter) (now : ℚ)
    (h : (prune rl.time_window rl.requests now).length < rl.max_requests) :
    wait_if_needed rl now =
      ({ rl with requests := prune rl.time_window rl.requests now ++ [now] }, now) := by
  unfold wait_if_needed
  simp only []
  rw [if_neg (by omega)]

theorem wait_if_needed_over (rl : RateLimiter) (now : ℚ)
    (hmax : 1 ≤ rl.max_requests)
    (h : rl.max_requests ≤ (prune rl.time_window rl.requests now).length) :
    wait_if_needed rl now =
      ({ rl with requests := [now] },
        now + (rl.time_window - (now - (prune rl.time_window rl.requests now).headD 0))) := by
  have hne : prune rl.time_window rl.requests now ≠ [] := by
    intro hnil
    rw [hnil] at h
    simp at h
    omega
  have hwait : 0 < rl.time_window - (now - (prune rl.time_window rl.requests now).headD 0) := by
    have := prune_head_lt rl.time_window rl.requests now hne
    linarith
  unfold wait_if_needed
  simp only []
  rw [if_pos h, if_pos hwait]

/- The admission trace refuting the window bound of claim C2: one call at
time 0, then 599 back-to-back calls at time 1, then the 601st call (which
waits out the window and clears the tracked list) and a 602nd immediately
after it. -/

def c2gaps : List ℚ := 0 :: 1 :: List.replicate 600 0

def c2events : List ℚ := (runWait { requests := [] } 0 c2gaps).2.2

theorem wiu600 (l : List ℚ) (now : ℚ) (h : (prune 300 l now).length < 600) :
    wait_if_needed ⟨600, 300, l⟩ now = (⟨600, 300, prune 300 l now ++ [now]⟩, now) :=
  wait_if_needed_under ⟨600, 300, l⟩ now h

theorem wio600 (l : List ℚ) (now : ℚ) (h : 600 ≤ (prune 300 l now).length) :
    wait_if_needed ⟨600, 300, l⟩ now =
      (⟨600, 300, [now]⟩, now + (300 - (now - (prune 300 l now).headD 0))) :=
  wait_if_needed_over ⟨600, 300, l⟩ now (by show (1:ℕ) ≤ 600; decide) h

theorem c2_prune_full (j : ℕ) :
    prune 300 (0 :: List.replicate j 1) 1 = 0 :: List.replicate j 1 := by
  apply prune_eq_self
  intro t ht
  rcases List.mem_cons.mp ht with rfl | ht
  · norm_num
  · rw [List.eq_of_mem_replicate ht]; norm_num

theorem c2_step (j : ℕ) (hj : j ≤ 598) :
    wait_if_needed ⟨600, 300, 0 :: List.replicate j 1⟩ 1 =
      (⟨600, 300, 0 :: List.replicate (j + 1) 1⟩, 1) := by
  rw [wiu600 _ 1 (by
    rw [c2_prune_full, List.length_cons, List.length_replicate]
    omega)]
  rw [c2_prune_full]
  rw [List.replicate_succ' j (1 : ℚ)]
  rfl

theorem c2_run (n j : ℕ) (h : j + n = 599) :
    runWait ⟨600, 300, 0 :: List.replicate j 1⟩ 1 (List.replicate (n + 2) 0) =
      (⟨600, 300, [1, 300]⟩, 300, List.replicate n 1 ++ [300, 300]) := by
  induction n generalizing j with
  | zero =>
    have hj : j = 599 := by omega
    subst hj
    have h1 : wait_if_needed ⟨600, 300, 0 :: List.replicate 599 1⟩ 1 =
        (⟨600, 300, [1]⟩, 300) := by
      rw [wio600 _ 1 (by
        rw [c2_prune_full, List.length_cons, List.length_replicate])]
      rw [c2_prune_full]
      norm_num
    have h2 : wait_if_needed ⟨600, 300, [1]⟩ 300 = (⟨600, 300, [1, 300]⟩, 300) := by
      have hp2 : prune 300 [1] 300 = [1] := by
        apply prune_eq_self; intro t ht; simp at ht; rw [ht]; norm_num
      rw [wiu600 _ 300 (by rw [hp2]; norm_num)]
      rw [hp2]
      rfl
    show runWait _ 1 (0 :: [0]) = _
    unfold runWait
    simp only [add_zero, h1]
    unfold runWait
    simp only [add_zero, h2]
    rfl
  | succ n ih =>
    have hstep := c2_step j (by omega)
    show runWait _ 1 (0 :: List.replicate (n + 2) 0) = _
    unfold runWait
    simp only [add_zero, hstep]
    rw [ih (j + 1) (by omega)]
    rfl

theorem c2events_eq :
    c2events = 0 :: 1 :: (List.replicate 598 1 ++ [300, 300]) := by
  have h1 : wait_if_needed { requests := [] } 0 = (⟨600, 300, [0]⟩, 0) := by
    rw [wiu600 [] 0 (by unfold prune; norm_num)]
    rfl
  have h2 : wait_if_needed ⟨600, 300, [0]⟩ 1 = (⟨600, 300, [0, 1]⟩, 1) := by
    have hp2 : prune 300 [0] 1 = [0] := by
      apply prune_eq_self; intro t ht; simp at ht; rw [ht]; norm_num
    rw [wiu600 _ 1 (by rw [hp2]; norm_num)]
    rw [hp2]
    rfl
  unfold c2events c2gaps
  unfold runWait
  simp only [add_zero, h1]
  unfold runWait
  simp only [zero_add, h2]
  rw [show ([(0 : ℚ), 1]) = 0 :: List.replicate 1 1 from rfl]
  rw [c2_run 598 1 (by omega)]

/-- Claim C2, counterexample: after a capacity wait `wait_if_needed` clears its
whole tracked list (line 70) even though 599 of the discarded timestamps are
still inside the trailing window, so the very next calls are admitted
immediately and the number of admitted requests issued within one trailing
300-second window reaches 601 > 600.  In the trace `c2gaps`, at time 300 the
requests admitted at times 1 (599 of them), 300 and 300 all lie within the
trailing window. -/
theorem admitted_window_count_cex :
    MAX_REQUESTS <
      c2events.countP (fun e => decide ((300 : ℚ) - e < 300 ∧ e ≤ 300)) := by
  rw [c2events_eq]
  rw [List.countP_cons, List.countP_cons, List.countP_append]
  rw [List.countP_replicate]
  norm_num [MAX_REQUESTS]

/-- Claim C2, amended: the governor's internally tracked timestamp list never
exceeds the ceiling of 600 entries, `wait_if_needed` records the entry
timestamp as the last element of the tracked list, and it returns without
sleeping whenever the pruned count is below the ceiling.  (The original
claim is false: because the post-wait clear discards timestamps that are
still live, the count of admitted requests inside a trailing 300-second
window can exceed 600 — see the counterexample.) -/
theorem wait_if_needed_tracked_bound (rl : RateLimiter) (now : ℚ)
    (hmax : rl.max_requests = 600) :
    (wait_if_needed rl now).1.requests.length ≤ 600 ∧
    (wait_if_needed rl now).1.requests.getLast? = some now ∧
    ((prune rl.time_window rl.requests now).length < 600 →
      (wait_if_needed rl now).2 = now) := by
  by_cases h : (prune rl.time_window rl.requests now).length < rl.max_requests
  · rw [wait_if_needed_under rl now h]
    refine ⟨?_, ?_, fun _ => rfl⟩
    · simp only []
      rw [List.length_append]
      simp
      omega
    · simp only []
      rw [List.getLast?_concat]
  · rw [wait_if_needed_over rl now (by omega) (by omega)]
    refine ⟨by simp, by simp, fun hlt => ?_⟩
    omega

/-- Witness for `wait_if_needed_tracked_bound` at a concrete limiter state. -/
theorem wait_if_needed_tracked_bound_witness :
    (prune ((⟨600, 300, [0]⟩ : RateLimiter)).time_window [0] 5).length < 600 ∧
    (wait_if_needed ⟨600, 300, [0]⟩ 5).1.requests.getLast? = some 5 ∧
    (wait_if_needed ⟨600, 300, [0]⟩ 5).2 = 5 :=
  ⟨by decide,
   (wait_if_needed_tracked_bound ⟨600, 300, [0]⟩ 5 rfl).2.1,
   (wait_if_needed_tracked_bound ⟨600, 300, [0]⟩ 5 rfl).2.2 (by decide)⟩

/-- Claim C9: when the pruned window count is at or above the ceiling,
`wait_if_needed` sleeps exactly `time_window - (now - oldest)` seconds
(returning at `now` plus that amount) and replaces the entire tracked window
by the single entry appended after the clear; and `reset` discards all
tracked history. -/
theorem wait_if_needed_over_capacity (rl : RateLimiter) (now : ℚ)
    (hmax : rl.max_requests = 600) (htw : rl.time_window = 300)
    (hover : 600 ≤ (prune rl.time_window rl.requests now).length) :
    wait_if_needed rl now =
      ({ rl with requests := [now] },
        now + (300 - (now - (prune rl.time_window rl.requests now).headD 0))) ∧
    (reset rl).requests = [] := by
  constructor
  · rw [wait_if_needed_over rl now (by omega) (by omega), htw]
  · rfl

/-- Witness for `wait_if_needed_over_capacity` on a 600-entry window. -/
theorem wait_if_needed_over_capacity_witness :
    600 ≤ (prune ((⟨600, 300, List.replicate 600 0⟩ : RateLimiter)).time_window
      (List.replicate 600 0) 0).length ∧
    wait_if_needed ⟨600, 300, List.replicate 600 0⟩ 0 =
      (⟨600, 300, [0]⟩,
        0 + (300 - (0 - (prune ((⟨600, 300, List.replicate 600 0⟩ : RateLimiter)).time_window
          (List.replicate 600 0) 0).headD 0))) := by
  have hp : prune ((⟨600, 300, List.replicate 600 0⟩ : RateLimiter)).time_window
      (List.replicate 600 0) 0 = List.replicate 600 0 :=
    prune_eq_self _ _ _ (by
      intro t ht
      rw [List.eq_of_mem_replicate ht]
      norm_num)
  refine ⟨by rw [hp, List.length_replicate], ?_⟩
  exact (wait_if_needed_over_capacity ⟨600, 300, List.replicate 600 0⟩ 0 rfl rfl
    (by rw [hp, List.length_replicate])).1

/- Global request-counting state (src/dumpany.py lines 41-50):
REQUEST_COUNTER['total'], REQUEST_TIMES, and LAST_PAUSE_TIME['timestamp']
(initially 0). -/

structure CounterState where
  total : Nat := 0
  times : List ℚ := []
  lastPause : ℚ := 0
  deriving DecidableEq

/- The pruned-and-extended REQUEST_TIMES list built by `count_request`: the
while-pop loop of lines 89-90 drops the leading timestamps older than
`now - RATE_WINDOW`, and line 93 appends the new request. -/
def new_times (st : CounterState) (now : ℚ) : List ℚ :=
  (st.times.dropWhile (fun t => t < now - RATE_WINDOW)) ++ [now]

/- The rolling-window count `current_requests = len(REQUEST_TIMES)` read at
line 94, after the prune and the append. -/
def window_count (st : CounterState) (now : ℚ) : Nat :=
  (new_times st now).length

/- `count_request` (lines 81-116).  Returns the new state, the soft-throttle
pause applied (if any), and the wall-clock time at which the call returns.
`LAST_PAUSE_TIME` is set to `time.time()` after the sleep (lines 106, 111,
116), i.e. to `now + pause`. -/
def count_request (st : CounterState) (now : ℚ) : CounterState × Option ℚ × ℚ :=
  if 30 ≤ now - st.lastPause then
    if EMERGENCY_THRESHOLD ≤ window_count st now then
      ({ total := st.total + 1, times := new_times st now, lastPause := now + 120 },
        some 120, now + 120)
    else if PAUSE_THRESHOLD ≤ window_count st now then
      ({ total := st.total + 1, times := new_times st now, lastPause := now + 60 },
        some 60, now + 60)
    else if WARN_THRESHOLD ≤ window_count st now then
      ({ total := st.total + 1, times := new_times st now, lastPause := now + 30 },
        some 30, now + 30)
    else
      ({ total := st.total + 1, times := new_times st now, lastPause := st.lastPause },
        none, now)
  else
    ({ total := st.total + 1, times := new_times st now, lastPause := st.lastPause },
      none, now)

/- A sequential trace of `count_request` calls: `gaps` are the delays
between the return of one call and the entry of the next; the result
collects the soft-throttle pauses as (trigger time, duration) pairs. -/
def runCounter (st : CounterState) (now : ℚ) : List ℚ → CounterState × ℚ × List (ℚ × ℚ)
  | [] => (st, now, [])
  | g :: gs =>
    let t := now + g
    let r := count_request st t
    let rest := runCounter r.1 r.2.2 gs
    (rest.1, rest.2.1, ((r.2.1.map (fun d => (t, d))).toList) ++ rest.2.2)

theorem count_request_spec (st : CounterState) (now : ℚ) :
    ((count_request st now).2.1 = none ∧
      (count_request st now).1.lastPause = st.lastPause ∧
      (count_request st now).2.2 = now) ∨
    (∃ d : ℚ, 0 ≤ d ∧ (count_request st now).2.1 = some d ∧
      30 ≤ now - st.lastPause ∧
      (count_request st now).1.lastPause = now + d ∧
      (count_request st now).2.2 = now + d) := by
  unfold count_request
  split_ifs with h1 h2 h3 h4
  · exact Or.inr ⟨120, by norm_num, rfl, h1, rfl, rfl⟩
  · exact Or.inr ⟨60, by norm_num, rfl, h1, rfl, rfl⟩
  · exact Or.inr ⟨30, by norm_num, rfl, h1, rfl, rfl⟩
  · exact Or.inl ⟨rfl, rfl, rfl⟩
  · exact Or.inl ⟨rfl, rfl, rfl⟩

theorem runCounter_pauses (gaps : List ℚ) :
    ∀ st now, (∀ g ∈ gaps, 0 ≤ g) → st.lastPause ≤ now →
      List.Chain' (fun a b : ℚ × ℚ => a.1 + 30 ≤ b.1) (runCounter st now gaps).2.2 ∧
      (∀ p ∈ (runCounter st now gaps).2.2, st.lastPause + 30 ≤ p.1) := by
  induction gaps with
  | nil => intro st now _ _; exact ⟨List.chain'_nil, by intro p hp; simp [runCounter] at hp⟩
  | cons g gs ih =>
    intro st now hg h0
    have hgnn : 0 ≤ g := hg g (List.mem_cons_self g gs)
    have hgs : ∀ x ∈ gs, 0 ≤ x := fun x hx => hg x (List.mem_cons_of_mem g hx)
    have ht : st.lastPause ≤ now + g := by linarith
    have hunf : (runCounter st now (g :: gs)).2.2 =
        ((count_request st (now + g)).2.1.map (fun d => (now + g, d))).toList ++
        (runCounter (count_request st (now + g)).1 (count_request st (now + g)).2.2 gs).2.2 := rfl
    rcases count_request_spec st (now + g) with ⟨hnone, hlp, hret⟩ |
      ⟨d, hd0, hsome, hcool, hlp, hret⟩
    · have hunf2 : (runCounter st now (g :: gs)).2.2 =
          (runCounter (count_request st (now + g)).1
            (count_request st (now + g)).2.2 gs).2.2 := by
        rw [hunf, hnone]
        simp
      rw [hunf2]
      have hrec := ih (count_request st (now + g)).1 (count_request st (now + g)).2.2 hgs
        (by rw [hlp, hret]; exact ht)
      refine ⟨hrec.1, fun p hp => ?_⟩
      have hmem := hrec.2 p hp
      rw [hlp] at hmem
      exact hmem
    · have hunf2 : (runCounter st now (g :: gs)).2.2 =
          (now + g, d) :: (runCounter (count_request st (now + g)).1
            (count_request st (now + g)).2.2 gs).2.2 := by
        rw [hunf, hsome]
        simp
      rw [hunf2]
      have hrec := ih (count_request st (now + g)).1 (count_request st (now + g)).2.2 hgs
        (by rw [hlp, hret])
      constructor
      · rw [List.chain'_cons']
        refine ⟨fun b hb => ?_, hrec.1⟩
        have hbmem := List.mem_of_mem_head? hb
        have hb1 := hrec.2 b hbmem
        rw [hlp] at hb1
        show now + g + 30 ≤ b.1
        linarith
      · intro p hp
        rcases List.mem_cons.mp hp with rfl | hp
        · show st.lastPause + 30 ≤ now + g
          linarith
        · have hmem := hrec.2 p hp
          rw [hlp] at hmem
          linarith

theorem dropWhile_replicate_of_false (p : ℚ → Bool) (n : ℕ) (a : ℚ) (h : p a = false) :
    (List.replicate n a).dropWhile p = List.replicate n a := by
  cases n with
  | zero => rfl
  | succ m =>
    rw [List.replicate_succ, List.dropWhile_cons, h]
    simp

/-- Claim C10: with the 30-second cooldown satisfied, `count_request` pauses 120
seconds when the rolling-window count is at or above the emergency threshold
575, 60 seconds when it is in [550, 575), and 30 seconds when it is in
[500, 550); and along any trace of calls with nonnegative inter-call gaps,
no two soft-throttle pauses are triggered less than 30 seconds apart. -/
theorem count_request_throttle (st : CounterState) (now : ℚ) (gaps : List ℚ)
    (hc : 30 ≤ now - st.lastPause) (hg : ∀ g ∈ gaps, 0 ≤ g)
    (h0 : st.lastPause ≤ now) :
    (((count_request st now).2.1 = some 30 ↔
        (WARN_THRESHOLD ≤ window_count st now ∧ window_count st now < PAUSE_THRESHOLD)) ∧
     ((count_request st now).2.1 = some 60 ↔
        (PAUSE_THRESHOLD ≤ window_count st now ∧ window_count st now < EMERGENCY_THRESHOLD)) ∧
     ((count_request st now).2.1 = some 120 ↔
        EMERGENCY_THRESHOLD ≤ window_count st now)) ∧
    List.Chain' (fun a b : ℚ × ℚ => a.1 + 30 ≤ b.1) (runCounter st now gaps).2.2 := by
  constructor
  · unfold count_request
    rw [if_pos hc]
    simp only [WARN_THRESHOLD, PAUSE_THRESHOLD, EMERGENCY_THRESHOLD] at *
    split_ifs with h1 h2 h3
    all_goals refine ⟨⟨fun hx => ?_, fun hx => ?_⟩, ⟨fun hx => ?_, fun hx => ?_⟩,
      ⟨fun hx => ?_, fun hx => ?_⟩⟩
    all_goals first
      | rfl
      | omega
      | (exfalso; omega)
      | (exfalso; simp only [Option.some.injEq] at hx; norm_num at hx)
      | (exfalso; simp at hx)
  · exact (runCounter_pauses gaps st now hg h0).1

/-- Witness for `count_request_throttle`: with 500 requests already in the
window, the 501st request triggers the 30-second warning pause. -/
theorem count_request_throttle_witness :
    (count_request ⟨0, List.replicate 500 0, 0⟩ 50).2.1 = some 30 ∧
    List.Chain' (fun a b : ℚ × ℚ => a.1 + 30 ≤ b.1)
      (runCounter ⟨0, List.replicate 500 0, 0⟩ 50 []).2.2 := by
  have h := count_request_throttle ⟨0, List.replicate 500 0, 0⟩ 50 []
    (by show (30:ℚ) ≤ 50 - 0; norm_num)
    (by intro g hg; simp at hg)
    (by show (0:ℚ) ≤ 50; norm_num)
  refine ⟨h.1.1.mpr ?_, h.2⟩
  have hdw : (List.replicate 500 (0:ℚ)).dropWhile (fun t => t < 50 - RATE_WINDOW) =
      List.replicate 500 0 :=
    dropWhile_replicate_of_false _ 500 0 (decide_eq_false (by norm_num [RATE_WINDOW]))
  have hwc : window_count ⟨0, List.replicate 500 0, 0⟩ 50 = 501 := by
    show ((List.replicate 500 (0:ℚ)).dropWhile (fun t => t < 50 - RATE_WINDOW)
      ++ [50]).length = 501
    rw [hdw, List.length_append, List.length_replicate]
    rfl
  rw [hwc]
  unfold WARN_THRESHOLD PAUSE_THRESHOLD
  omega

/- LAST_REQUEST_TIME (line 30): the per-domain map from host identifier to
the timestamp of the last recorded request, modelled as an association list
read through `List.lookup`; Python dict assignment replaces the entry. -/
def dictSet (m : List (String × ℚ)) (k : String) (v : ℚ) : List (String × ℚ) :=
  (k, v) :: m.filter (fun p => ¬ p.1 = k)

/- `rate_limited_request` (lines 141-161).  The pre-request emergency brake
(lines 146-152) sleeps 120 seconds and then calls itself again; that
recursion is bounded here by `fuel` (in the source it ends once every
tracked timestamp has aged out of the trailing window).  After the
per-domain wait (lines 155-158), line 160 records `time.time()` — the
post-sleep instant — for the domain, and line 161 calls `count_request`.
Returns the updated LAST_REQUEST_TIME map, the updated counter state and
the wall-clock return time, or `none` if the fuel ran out. -/
def rate_limited_request (fuel : Nat) (lastReq : List (String × ℚ)) (st : CounterState)
    (domain : String) (now : ℚ) :
    Option (List (String × ℚ) × CounterState × ℚ) :=
  match fuel with
  | 0 => none
  | fuel + 1 =>
    if EMERGENCY_THRESHOLD ≤ (st.times.filter (fun t => now - RATE_WINDOW < t)).length then
      rate_limited_request fuel lastReq st domain (now + 120)
    else
      let t1 :=
        match lastReq.lookup domain with
        | some t0 =>
          if now - t0 < MIN_REQUEST_INTERVAL then t0 + MIN_REQUEST_INTERVAL else now
        | none => now
      some (dictSet lastReq domain t1, (count_request st t1).1, (count_request st t1).2.2)

/-- Claim C4, amended: the per-destination throttle function
`rate_limited_request`, when the pre-request emergency brake does not fire,
spaces consecutive recorded requests to the same host identifier at least
`MIN_REQUEST_INTERVAL = 0.6` seconds apart: if the map holds `t0` for the
domain and the call enters at `now ≥ t0`, the newly recorded timestamp `t1`
satisfies `t0 + 0.6 ≤ t1`.  (The original claim is false for the program:
no request site of src/dumpany.py ever calls `rate_limited_request`, so
requests issued by the program to the same host are not spaced — see the
counterexample.) -/
theorem rate_limited_request_spacing (fuel : Nat) (lastReq : List (String × ℚ))
    (st : CounterState) (domain : String) (now t0 : ℚ)
    (hbrake : (st.times.filter (fun t => now - RATE_WINDOW < t)).length < EMERGENCY_THRESHOLD)
    (hlook : lastReq.lookup domain = some t0)
    (hf : 1 ≤ fuel) :
    ∃ t1, rate_limited_request fuel lastReq st domain now =
        some (dictSet lastReq domain t1, (count_request st t1).1, (count_request st t1).2.2) ∧
      t0 + MIN_REQUEST_INTERVAL ≤ t1 ∧
      (dictSet lastReq domain t1).lookup domain = some t1 := by
  rcases fuel with _ | fuel
  · omega
  · refine ⟨if now - t0 < MIN_REQUEST_INTERVAL then t0 + MIN_REQUEST_INTERVAL else now,
      ?_, ?_, ?_⟩
    · show (if EMERGENCY_THRESHOLD ≤ (st.times.filter
          (fun t => now - RATE_WINDOW < t)).length then _ else _) = _
      rw [if_neg (by omega), hlook]
    · by_cases hlt : now - t0 < MIN_REQUEST_INTERVAL
      · rw [if_pos hlt]
      · rw [if_neg hlt]
        linarith
    · show List.lookup domain ((domain, _) :: _) = _
      simp [List.lookup]

/-- Witness for `rate_limited_request_spacing`: a second request to the same
host arriving 0.3 seconds after the first is pushed to 0.6 seconds. -/
theorem rate_limited_request_spacing_witness :
    ∃ t1, rate_limited_request 1 [("api", 0)] ⟨0, [], 0⟩ "api" (3/10) =
        some (dictSet [("api", 0)] "api" t1, (count_request ⟨0, [], 0⟩ t1).1,
          (count_request ⟨0, [], 0⟩ t1).2.2) ∧
      (0 : ℚ) + MIN_REQUEST_INTERVAL ≤ t1 ∧
      (dictSet [("api", 0)] "api" t1).lookup "api" = some t1 :=
  rate_limited_request_spacing 1 [("api", 0)] ⟨0, [], 0⟩ "api" (3/10) 0
    (by decide) (by decide) (by decide)

/- HTTP layer as seen by the worker: a response carries the status code,
the two headers the code reads (Retry-After at lines 234/397, Location at
line 240) and the body bytes; `none` for a header means it is absent. -/
structure HttpResponse where
  status : Nat
  retryAfter : Option Nat := none
  location : Option String := none
  body : List Nat := []
  deriving DecidableEq

/- httpx `Response.is_success`: `raise_for_status` (lines 246, 403) raises
for every non-2xx response, including un-followed redirects. -/
def is_success (status : Nat) : Bool := 200 ≤ status ∧ status < 300

/- Parsed document-metadata payload: `metadata['links']['document']`
(lines 221, 330, 338) and `metadata.get('created_at')` (line 331). -/
structure DocMetadata where
  documentLink : Option String := none
  createdAt : Option String := none
  deriving DecidableEq

/- One issued HTTP request: target URL, whether it carried the API-key
credential (`auth=(API_KEY, '')`), and whether it carried the
`Accept: application/pdf` header. -/
structure Request where
  url : String
  authed : Bool
  acceptPdf : Bool
  deriving DecidableEq

/- `metadata_link.replace('/content', '')` of line 212: remove every
occurrence of "/content", scanning left to right (implemented on the
character list so that it is kernel-computable). -/
def stripContent : List Char → List Char
  | '/' :: 'c' :: 'o' :: 'n' :: 't' :: 'e' :: 'n' :: 't' :: rest => stripContent rest
  | c :: rest => c :: stripContent rest
  | [] => []

def pyReplaceContent (s : String) : String := ⟨stripContent s.data⟩

/- The host identifier of a URL: its authority component (the substring
after "://" and before the next "/"). -/
def afterScheme : List Char → List Char
  | ':' :: '/' :: '/' :: rest => rest
  | _ :: rest => afterScheme rest
  | [] => []

def upToSlash : List Char → List Char
  | '/' :: _ => []
  | c :: rest => c :: upToSlash rest
  | [] => []

def urlHost (url : String) : String := ⟨upToSlash (afterScheme url.data)⟩

/- The reasons one attempt of `download_single_pdf` fails: the exceptions
raised and caught inside the try block (lines 206-258). -/
inductive Err where
  | metadataFailed (url : String)
  | noDocumentUrl
  | rateLimited
  | httpStatus (code : Nat)
  | network
  | missingLocation
  deriving DecidableEq

/- The console messages relevant to the claims, as structured events in
place of the rich-console strings of lines 68, 235, 253, 257 and 398. -/
inductive Msg where
  | rateLimitApproaching (wait : ℚ)
  | rateLimitedMetadata (retryAfter : Nat)
  | rateLimitedDownload (retryAfter : Nat)
  | failedAttempt (attempt maxRetries : Nat) (description : String) (e : Err)
  | failedFinal (description : String) (e : Err)
  deriving DecidableEq

/- The world threaded through the worker: wall-clock time, the global rate
limiter, and the observable effects — issued requests with their issue
times, file writes, and console messages. -/
structure W where
  time : ℚ
  rl : RateLimiter
  reqs : List (ℚ × Request) := []
  writes : List (String × List Nat) := []
  msgs : List Msg := []
  deriving DecidableEq

def initW (t : ℚ) (rl : RateLimiter) : W :=
  { time := t, rl := rl }

/- `rate_limiter.wait_if_needed()` as invoked by the worker (lines 226 and
383), logging the waiting message of line 68 when a sleep occurs. -/
def waitW (w : W) : W :=
  { w with
    rl := (wait_if_needed w.rl w.time).1,
    time := (wait_if_needed w.rl w.time).2,
    msgs := w.msgs ++
      (if w.time < (wait_if_needed w.rl w.time).2 then
        [Msg.rateLimitApproaching ((wait_if_needed w.rl w.time).2 - w.time)]
      else []) }

def logReq (w : W) (r : Request) : W :=
  { w with reqs := w.reqs ++ [(w.time, r)] }

/- The world after the authenticated metadata GET of line 390 (which is
preceded by the governor wait of line 383). -/
def metaReqW (w : W) (ml : String) : W :=
  logReq (waitW w) ⟨ml, true, false⟩

/- The 429 handler of `get_document_metadata` (lines 396-401): log, reset
the governor, sleep Retry-After. -/
def meta429W (w : W) (n : Nat) : W :=
  { w with
    msgs := w.msgs ++ [Msg.rateLimitedMetadata n],
    rl := reset w.rl,
    time := w.time + (n : ℚ) }

/- `get_document_metadata` (lines 382-409): waits on the global governor,
issues an authenticated GET to the metadata link; on 429 reads Retry-After
(default 300), logs, resets the governor, sleeps, and the raised exception
is caught by the surrounding handler, yielding None; any other non-2xx
yields None through `raise_for_status`; a 2xx yields the parsed payload
(`parsed = none` models a body on which `response.json()` fails). -/
def get_document_metadata (w : W) (metadata_link : String)
    (resp : Option HttpResponse) (parsed : Option DocMetadata) :
    Option DocMetadata × W :=
  match resp with
  | none => (none, metaReqW w metadata_link)
  | some r =>
    if r.status = 429 then
      (none, meta429W (metaReqW w metadata_link) (r.retryAfter.getD 300))
    else if is_success r.status then
      (parsed, metaReqW w metadata_link)
    else
      (none, metaReqW w metadata_link)

/- The world after the authenticated document GET of line 231 (preceded by
the governor wait of line 226). -/
def docReqW (w : W) (u : String) : W :=
  logReq (waitW w) ⟨u, true, true⟩

/- The 429 handler of the document fetch (lines 233-237): log and sleep
Retry-After; note that unlike lines 396-401 it does NOT reset the
governor. -/
def doc429W (w : W) (n : Nat) : W :=
  { w with
    msgs := w.msgs ++ [Msg.rateLimitedDownload n],
    time := w.time + (n : ℚ) }

/- The unauthenticated redirect GET of line 244: only the Accept header. -/
def redirReqW (w : W) (u : String) : W :=
  logReq w ⟨u, false, true⟩

def writeW (w : W) (sp : String) (b : List Nat) : W :=
  { w with writes := w.writes ++ [(sp, b)] }

/- The try-block of one attempt of `download_single_pdf` (lines 207-249):
`mresp`/`mparsed` describe the network behaviour of the metadata call,
`dresp` the response to the authenticated document GET (none = transport
error), `rresp` the response to the unauthenticated redirect GET (consulted
only when the first response is a 302).  Returns `none` on success (the
`return True` of line 249) or the caught exception. -/
def runAttempt (w : W) (metadata_link save_path : String)
    (mresp : Option HttpResponse) (mparsed : Option DocMetadata)
    (dresp rresp : Option HttpResponse) : Option Err × W :=
  match get_document_metadata w (pyReplaceContent metadata_link) mresp mparsed with
  | (none, w1) => (some (Err.metadataFailed (pyReplaceContent metadata_link)), w1)
  | (some metadata, w1) =>
    match metadata.documentLink with
    | none => (some Err.noDocumentUrl, w1)
    | some document_url =>
      match dresp with
      | none => (some Err.network, docReqW w1 document_url)
      | some resp =>
        if resp.status = 429 then
          (some Err.rateLimited, doc429W (docReqW w1 document_url) (resp.retryAfter.getD 300))
        else if resp.status = 302 then
          match resp.location with
          | none => (some Err.missingLocation, docReqW w1 document_url)
          | some redirect_url =>
            match rresp with
            | none => (some Err.network, redirReqW (docReqW w1 document_url) redirect_url)
            | some r2 =>
              if is_success r2.status then
                (none, writeW (redirReqW (docReqW w1 document_url) redirect_url)
                  save_path r2.body)
              else
                (some (Err.httpStatus r2.status),
                  redirReqW (docReqW w1 document_url) redirect_url)
        else if is_success resp.status then
          (none, writeW (docReqW w1 document_url) save_path resp.body)
        else
          (some (Err.httpStatus resp.status), docReqW w1 document_url)

/- The network behaviour of one attempt, bundled. -/
structure AttemptEnv where
  metaResp : Option HttpResponse := none
  metaParsed : Option DocMetadata := none
  docResp : Option HttpResponse := none
  redirResp : Option HttpResponse := none
  deriving DecidableEq

/- Whether an attempt with this network behaviour reaches the file write
and the `return True` of line 249 (a derived classifier; the equivalence
with `runAttempt` is proved in `runAttempt_char`). -/
def attempt_ok (mresp : Option HttpResponse) (mparsed : Option DocMetadata)
    (dresp rresp : Option HttpResponse) : Bool :=
  match mresp with
  | none => false
  | some mr =>
    if mr.status = 429 then false
    else if is_success mr.status then
      match mparsed with
      | none => false
      | some md =>
        match md.documentLink with
        | none => false
        | some _ =>
          match dresp with
          | none => false
          | some resp =>
            if resp.status = 429 then false
            else if resp.status = 302 then
              match resp.location with
              | none => false
              | some _ =>
                match rresp with
                | none => false
                | some r2 => is_success r2.status
            else is_success resp.status
    else false

def envOk (e : AttemptEnv) : Bool :=
  attempt_ok e.metaResp e.metaParsed e.docResp e.redirResp

/- The bytes persisted on a successful attempt: the redirect response's
body when the first response was a 302, the first response's otherwise. -/
def final_body (dresp rresp : Option HttpResponse) : List Nat :=
  match dresp with
  | none => []
  | some resp =>
    if resp.status = 302 then
      match rresp with
      | none => []
      | some r2 => r2.body
    else resp.body

def envBody (e : AttemptEnv) : List Nat :=
  final_body e.docResp e.redirResp

/- The task tuple built by the orchestrator (lines 295-301, 337-343):
(metadata_link, save_path, company_name, description, debug). -/
structure DownloadTask where
  metadataLink : String
  savePath : String
  companyName : String
  description : String
  debug : Bool := false
  deriving DecidableEq

/- The retry loop of `download_single_pdf` (lines 206, 251-260): `attempt`
is the 0-based loop index, `envs` the behaviours of the remaining attempts
(`attempt < max_retries - 1`, i.e. attempts remain, is `envs.tail ≠ []`).
On a failed attempt with attempts remaining it logs the warning of line 253
and sleeps the 2-second backoff of line 254; on the final failure it logs
the error of line 257 and returns False. -/
def downloadLoop (metadata_link save_path description : String) (maxRetries : Nat) :
    Nat → List AttemptEnv → W → Bool × W
  | _, [], w => (false, w)
  | attempt, env :: rest, w =>
    match runAttempt w metadata_link save_path
        env.metaResp env.metaParsed env.docResp env.redirResp with
    | (none, w1) => (true, w1)
    | (some e, w1) =>
      match rest with
      | [] => (false, { w1 with msgs := w1.msgs ++ [Msg.failedFinal description e] })
      | _ :: _ =>
        downloadLoop metadata_link save_path description maxRetries (attempt + 1) rest
          { w1 with
            msgs := w1.msgs ++ [Msg.failedAttempt (attempt + 1) maxRetries description e],
            time := w1.time + 2 }

/- `download_single_pdf` (lines 202-260): max_retries = 3; `e0`, `e1`, `e2`
are the network behaviours of the three attempts. -/
def download_single_pdf (task : DownloadTask) (e0 e1 e2 : AttemptEnv) (w : W) :
    Bool × W :=
  downloadLoop task.metadataLink task.savePath task.description 3 0 [e0, e1, e2] w

/- The orchestrator's dispatch-and-collect loop (lines 351-353):
`executor.map` yields one boolean outcome per task and the progress advance
happens once per completed task regardless of outcome.  Worker effects are
serialised; each task's outcome depends only on its own environments. -/
def dispatchAll : List (DownloadTask × AttemptEnv × AttemptEnv × AttemptEnv) → W →
    List Bool × W
  | [], w => ([], w)
  | (t, e0, e1, e2) :: rest, w =>
    let r := download_single_pdf t e0 e1 e2 w
    let rs := dispatchAll rest r.2
    (r.1 :: rs.1, rs.2)

/- Characterisation of one attempt: on a behaviour classified successful it
returns no error and appends exactly one write of the final body; on a
failing behaviour it returns an error and leaves the write list unchanged. -/
theorem runAttempt_char (w : W) (ml sp : String) (mresp : Option HttpResponse)
    (mparsed : Option DocMetadata) (dresp rresp : Option HttpResponse) :
    (attempt_ok mresp mparsed dresp rresp = true →
      (runAttempt w ml sp mresp mparsed dresp rresp).1 = none ∧
      (runAttempt w ml sp mresp mparsed dresp rresp).2.writes =
        w.writes ++ [(sp, final_body dresp rresp)]) ∧
    (attempt_ok mresp mparsed dresp rresp = false →
      (runAttempt w ml sp mresp mparsed dresp rresp).1.isSome = true ∧
      (runAttempt w ml sp mresp mparsed dresp rresp).2.writes = w.writes) := by
  rcases mresp with _ | mr
  · exact ⟨fun h => by simp [attempt_ok] at h, fun _ => ⟨rfl, rfl⟩⟩
  · by_cases h429 : mr.status = 429
    · refine ⟨fun h => ?_, fun _ => ?_⟩
      · simp [attempt_ok, h429] at h
      · constructor
        · simp [runAttempt, get_document_metadata, h429]
        · simp [runAttempt, get_document_metadata, h429, meta429W, metaReqW, logReq, waitW]
    · by_cases hs : is_success mr.status = true
      · rcases mparsed with _ | md
        · refine ⟨fun h => ?_, fun _ => ?_⟩
          · simp [attempt_ok, h429, hs] at h
          · constructor
            · simp [runAttempt, get_document_metadata, h429, hs]
            · simp [runAttempt, get_document_metadata, h429, hs, metaReqW, logReq, waitW]
        · rcases hdl : md.documentLink with _ | du
          · refine ⟨fun h => ?_, fun _ => ?_⟩
            · simp [attempt_ok, h429, hs, hdl] at h
            · constructor
              · simp [runAttempt, get_document_metadata, h429, hs, hdl]
              · simp [runAttempt, get_document_metadata, h429, hs, hdl,
                  metaReqW, logReq, waitW]
          · rcases dresp with _ | resp
            · refine ⟨fun h => ?_, fun _ => ?_⟩
              · simp [attempt_ok, h429, hs, hdl] at h
              · constructor
                · simp [runAttempt, get_document_metadata, h429, hs, hdl]
                · simp [runAttempt, get_document_metadata, h429, hs, hdl,
                    docReqW, metaReqW, logReq, waitW]
            · by_cases hd429 : resp.status = 429
              · refine ⟨fun h => ?_, fun _ => ?_⟩
                · simp [attempt_ok, h429, hs, hdl, hd429] at h
                · constructor
                  · simp [runAttempt, get_document_metadata, h429, hs, hdl, hd429]
                  · simp [runAttempt, get_document_metadata, h429, hs, hdl, hd429,
                      doc429W, docReqW, metaReqW, logReq, waitW]
              · by_cases h302 : resp.status = 302
                · rcases hloc : resp.location with _ | ru
                  · refine ⟨fun h => ?_, fun _ => ?_⟩
                    · simp [attempt_ok, h429, hs, hdl, hd429, h302, hloc] at h
                    · constructor
                      · simp [runAttempt, get_document_metadata, h429, hs, hdl,
                          hd429, h302, hloc]
                      · simp [runAttempt, get_document_metadata, h429, hs, hdl,
                          hd429, h302, hloc, docReqW, metaReqW, logReq, waitW]
                  · rcases rresp with _ | r2
                    · refine ⟨fun h => ?_, fun _ => ?_⟩
                      · simp [attempt_ok, h429, hs, hdl, hd429, h302, hloc] at h
                      · constructor
                        · simp [runAttempt, get_document_metadata, h429, hs, hdl,
                            hd429, h302, hloc]
                        · simp [runAttempt, get_document_metadata, h429, hs, hdl,
                            hd429, h302, hloc, redirReqW, docReqW, metaReqW,
                            logReq, waitW]
                    · by_cases hr2 : is_success r2.status = true
                      · refine ⟨fun _ => ?_, fun h => ?_⟩
                        · constructor
                          · simp [runAttempt, get_document_metadata, h429, hs, hdl,
                              hd429, h302, hloc, hr2]
                          · simp [runAttempt, get_document_metadata, final_body,
                              h429, hs, hdl, hd429, h302, hloc, hr2, writeW,
                              redirReqW, docReqW, metaReqW, logReq, waitW]
                        · simp [attempt_ok, h429, hs, hdl, hd429, h302, hloc, hr2] at h
                      · refine ⟨fun h => ?_, fun _ => ?_⟩
                        · simp [attempt_ok, h429, hs, hdl, hd429, h302, hloc, hr2] at h
                        · constructor
                          · simp [runAttempt, get_document_metadata, h429, hs, hdl,
                              hd429, h302, hloc, hr2]
                          · simp [runAttempt, get_document_metadata, h429, hs, hdl,
                              hd429, h302, hloc, hr2, redirReqW, docReqW, metaReqW,
                              logReq, waitW]
                · by_cases hok : is_success resp.status = true
                  · refine ⟨fun _ => ?_, fun h => ?_⟩
                    · constructor
                      · simp [runAttempt, get_document_metadata, h429, hs, hdl,
                          hd429, h302, hok]
                      · simp [runAttempt, get_document_metadata, final_body, h429,
                          hs, hdl, hd429, h302, hok, writeW, docReqW, metaReqW,
                          logReq, waitW]
                    · simp [attempt_ok, h429, hs, hdl, hd429, h302, hok] at h
                  · refine ⟨fun h => ?_, fun _ => ?_⟩
                    · simp [attempt_ok, h429, hs, hdl, hd429, h302, hok] at h
                    · constructor
                      · simp [runAttempt, get_document_metadata, h429, hs, hdl,
                          hd429, h302, hok]
                      · simp [runAttempt, get_document_metadata, h429, hs, hdl,
                          hd429, h302, hok, docReqW, metaReqW, logReq, waitW]
      · refine ⟨fun h => ?_, fun _ => ?_⟩
        · simp [attempt_ok, h429, hs] at h
        · constructor
          · simp [runAttempt, get_document_metadata, h429, hs]
          · simp [runAttempt, get_document_metadata, h429, hs, metaReqW, logReq, waitW]

/- Console messages are only appended, never removed: monotonicity of the
message log through each embedded operation. -/

theorem gdm_msgs_mono (w : W) (ml : String) (resp : Option HttpResponse)
    (parsed : Option DocMetadata) (m : Msg) (hm : m ∈ w.msgs) :
    m ∈ (get_document_metadata w ml resp parsed).2.msgs := by
  rcases resp with _ | r
  · exact List.mem_append_left _ hm
  · simp only [get_document_metadata]
    split_ifs with h1 h2
    · exact List.mem_append_left _ (List.mem_append_left _ hm)
    · exact List.mem_append_left _ hm
    · exact List.mem_append_left _ hm

theorem runAttempt_msgs_mono (w : W) (ml sp : String) (mresp : Option HttpResponse)
    (mparsed : Option DocMetadata) (dresp rresp : Option HttpResponse) (m : Msg)
    (hm : m ∈ w.msgs) :
    m ∈ (runAttempt w ml sp mresp mparsed dresp rresp).2.msgs := by
  have hg := gdm_msgs_mono w (pyReplaceContent ml) mresp mparsed m hm
  unfold runAttempt
  split
  next w1 heq =>
    rw [heq] at hg
    exact hg
  next metadata w1 heq =>
    rw [heq] at hg
    split
    · exact hg
    · split
      · exact List.mem_append_left _ hg
      · split_ifs with h1 h2 h3
        · exact List.mem_append_left _ (List.mem_append_left _ hg)
        · split
          · exact List.mem_append_left _ hg
          · split
            · exact List.mem_append_left _ hg
            · split_ifs with h4
              · exact List.mem_append_left _ hg
              · exact List.mem_append_left _ hg
        · exact List.mem_append_left _ hg
        · exact List.mem_append_left _ hg

/- Step equations for the retry loop. -/

theorem downloadLoop_cons_ok (ml sp desc : String) (mR a : Nat) (e : AttemptEnv)
    (rest : List AttemptEnv) (w w1 : W)
    (hr : runAttempt w ml sp e.metaResp e.metaParsed e.docResp e.redirResp = (none, w1)) :
    downloadLoop ml sp desc mR a (e :: rest) w = (true, w1) := by
  unfold downloadLoop
  rw [hr]

theorem downloadLoop_cons_last (ml sp desc : String) (mR a : Nat) (e : AttemptEnv)
    (w w1 : W) (er : Err)
    (hr : runAttempt w ml sp e.metaResp e.metaParsed e.docResp e.redirResp = (some er, w1)) :
    downloadLoop ml sp desc mR a [e] w =
      (false, { w1 with msgs := w1.msgs ++ [Msg.failedFinal desc er] }) := by
  unfold downloadLoop
  rw [hr]

theorem downloadLoop_cons_retry (ml sp desc : String) (mR a : Nat) (e e2 : AttemptEnv)
    (rest2 : List AttemptEnv) (w w1 : W) (er : Err)
    (hr : runAttempt w ml sp e.metaResp e.metaParsed e.docResp e.redirResp = (some er, w1)) :
    downloadLoop ml sp desc mR a (e :: e2 :: rest2) w =
      downloadLoop ml sp desc mR (a + 1) (e2 :: rest2)
        { w1 with
          msgs := w1.msgs ++ [Msg.failedAttempt (a + 1) mR desc er],
          time := w1.time + 2 } := by
  unfold downloadLoop
  rw [hr]
  rfl

/- A first attempt that succeeds ends the loop with one write appended. -/
theorem downloadLoop_head_ok (ml sp desc : String) (mR a : Nat) (e : AttemptEnv)
    (rest : List AttemptEnv) (w : W) (h : envOk e = true) :
    (downloadLoop ml sp desc mR a (e :: rest) w).1 = true ∧
    (downloadLoop ml sp desc mR a (e :: rest) w).2.writes =
      w.writes ++ [(sp, envBody e)] := by
  have hc := (runAttempt_char w ml sp e.metaResp e.metaParsed e.docResp e.redirResp).1 h
  rcases hr : runAttempt w ml sp e.metaResp e.metaParsed e.docResp e.redirResp with ⟨res, w1⟩
  rw [hr] at hc
  rcases res with _ | er
  · rw [downloadLoop_cons_ok ml sp desc mR a e rest w w1 hr]
    exact ⟨rfl, hc.2⟩
  · simp at hc

/- A failing first attempt with attempts remaining recurses with the write
list unchanged. -/
theorem downloadLoop_head_fail (ml sp desc : String) (mR a : Nat) (e e2 : AttemptEnv)
    (rest2 : List AttemptEnv) (w : W) (h : envOk e = false) :
    ∃ w1, downloadLoop ml sp desc mR a (e :: e2 :: rest2) w =
        downloadLoop ml sp desc mR (a + 1) (e2 :: rest2) w1 ∧
      w1.writes = w.writes := by
  have hc := (runAttempt_char w ml sp e.metaResp e.metaParsed e.docResp e.redirResp).2 h
  rcases hr : runAttempt w ml sp e.metaResp e.metaParsed e.docResp e.redirResp with ⟨res, w1⟩
  rw [hr] at hc
  rcases res with _ | er
  · simp at hc
  · exact ⟨{ w1 with
        msgs := w1.msgs ++ [Msg.failedAttempt (a + 1) mR desc er],
        time := w1.time + 2 },
      downloadLoop_cons_retry ml sp desc mR a e e2 rest2 w w1 er hr, hc.2⟩

/- Message-log monotonicity through the retry loop. -/
theorem downloadLoop_msgs_mono (ml sp desc : String) (mR : Nat)
    (envs : List AttemptEnv) :
    ∀ a w m, m ∈ w.msgs → m ∈ (downloadLoop ml sp desc mR a envs w).2.msgs := by
  induction envs with
  | nil => exact fun a w m hm => hm
  | cons e rest ih =>
    intro a w m hm
    have hra := runAttempt_msgs_mono w ml sp e.metaResp e.metaParsed e.docResp e.redirResp m hm
    rcases hr : runAttempt w ml sp e.metaResp e.metaParsed e.docResp e.redirResp with ⟨res, w1⟩
    rw [hr] at hra
    rcases res with _ | er
    · rw [downloadLoop_cons_ok ml sp desc mR a e rest w w1 hr]
      exact hra
    · rcases rest with _ | ⟨e2, rest2⟩
      · rw [downloadLoop_cons_last ml sp desc mR a e w w1 er hr]
        exact List.mem_append_left _ hra
      · rw [downloadLoop_cons_retry ml sp desc mR a e e2 rest2 w w1 er hr]
        exact ih (a + 1) _ m (List.mem_append_left _ hra)

/- A run in which every attempt fails reports failure, writes nothing, and
(when there was at least one attempt) logs a final-failure message carrying
the task description. -/
theorem downloadLoop_all_fail (ml sp desc : String) (mR : Nat)
    (envs : List AttemptEnv) :
    ∀ a w, (∀ e ∈ envs, envOk e = false) →
      (downloadLoop ml sp desc mR a envs w).1 = false ∧
      (downloadLoop ml sp desc mR a envs w).2.writes = w.writes ∧
      (envs ≠ [] → ∃ er,
        Msg.failedFinal desc er ∈ (downloadLoop ml sp desc mR a envs w).2.msgs) := by
  induction envs with
  | nil => exact fun a w _ => ⟨rfl, rfl, fun hne => absurd rfl hne⟩
  | cons e rest ih =>
    intro a w hall
    have hc := (runAttempt_char w ml sp e.metaResp e.metaParsed e.docResp e.redirResp).2
      (hall e (List.mem_cons_self e rest))
    rcases hr : runAttempt w ml sp e.metaResp e.metaParsed e.docResp e.redirResp with ⟨res, w1⟩
    rw [hr] at hc
    rcases res with _ | er
    · simp at hc
    · rcases rest with _ | ⟨e2, rest2⟩
      · rw [downloadLoop_cons_last ml sp desc mR a e w w1 er hr]
        refine ⟨rfl, hc.2, fun _ => ⟨er, ?_⟩⟩
        simp
      · rw [downloadLoop_cons_retry ml sp desc mR a e e2 rest2 w w1 er hr]
        have ih2 := ih (a + 1)
          { w1 with
            msgs := w1.msgs ++ [Msg.failedAttempt (a + 1) mR desc er],
            time := w1.time + 2 }
          (fun x hx => hall x (List.mem_cons_of_mem e hx))
        refine ⟨ih2.1, ?_, fun _ => ih2.2.2 (by simp)⟩
        rw [ih2.2.1]
        exact hc.2

/-- Claim C5: a worker whose three attempts all fail reports failure and writes no
destination file; a worker whose first successful attempt is k ≤ 3 reports
success and writes exactly one file, containing the full body of the final
response of that attempt; and in the concrete all-fail run (each attempt a
metadata transport error, fresh governor, start time 0) the clock advances
by exactly the two fixed 2-second backoffs slept between the three
attempts. -/
theorem download_retry_outcomes (task : DownloadTask) (e0 e1 e2 : AttemptEnv)
    (t0 : ℚ) (rl : RateLimiter) :
    (envOk e0 = false → envOk e1 = false → envOk e2 = false →
      (download_single_pdf task e0 e1 e2 (initW t0 rl)).1 = false ∧
      (download_single_pdf task e0 e1 e2 (initW t0 rl)).2.writes = []) ∧
    (envOk e0 = true →
      (download_single_pdf task e0 e1 e2 (initW t0 rl)).1 = true ∧
      (download_single_pdf task e0 e1 e2 (initW t0 rl)).2.writes =
        [(task.savePath, envBody e0)]) ∧
    (envOk e0 = false → envOk e1 = true →
      (download_single_pdf task e0 e1 e2 (initW t0 rl)).1 = true ∧
      (download_single_pdf task e0 e1 e2 (initW t0 rl)).2.writes =
        [(task.savePath, envBody e1)]) ∧
    (envOk e0 = false → envOk e1 = false → envOk e2 = true →
      (download_single_pdf task e0 e1 e2 (initW t0 rl)).1 = true ∧
      (download_single_pdf task e0 e1 e2 (initW t0 rl)).2.writes =
        [(task.savePath, envBody e2)]) ∧
    (e0 = {} → e1 = {} → e2 = {} → rl = { requests := [] } → t0 = 0 →
      (download_single_pdf task e0 e1 e2 (initW t0 rl)).2.time = 4) := by
  refine ⟨fun h0 h1 h2 => ?_, fun h0 => ?_, fun h0 h1 => ?_, fun h0 h1 h2 => ?_, ?_⟩
  · have hall : ∀ e ∈ [e0, e1, e2], envOk e = false := by
      intro e he
      simp only [List.mem_cons, List.not_mem_nil, or_false] at he
      rcases he with rfl | rfl | rfl <;> assumption
    have h := downloadLoop_all_fail task.metadataLink task.savePath task.description 3
      [e0, e1, e2] 0 (initW t0 rl) hall
    exact ⟨h.1, h.2.1⟩
  · have h := downloadLoop_head_ok task.metadataLink task.savePath task.description 3 0
      e0 [e1, e2] (initW t0 rl) h0
    exact ⟨h.1, h.2⟩
  · obtain ⟨w1, heq, hw⟩ := downloadLoop_head_fail task.metadataLink task.savePath
      task.description 3 0 e0 e1 [e2] (initW t0 rl) h0
    have h := downloadLoop_head_ok task.metadataLink task.savePath task.description 3 1
      e1 [e2] w1 h1
    constructor
    · show (downloadLoop task.metadataLink task.savePath task.description 3 0
        [e0, e1, e2] (initW t0 rl)).1 = true
      rw [heq]
      exact h.1
    · show (downloadLoop task.metadataLink task.savePath task.description 3 0
        [e0, e1, e2] (initW t0 rl)).2.writes = [(task.savePath, envBody e1)]
      rw [heq, h.2, hw]
      rfl
  · obtain ⟨w1, heq1, hw1⟩ := downloadLoop_head_fail task.metadataLink task.savePath
      task.description 3 0 e0 e1 [e2] (initW t0 rl) h0
    obtain ⟨w2, heq2, hw2⟩ := downloadLoop_head_fail task.metadataLink task.savePath
      task.description 3 1 e1 e2 [] w1 h1
    have h := downloadLoop_head_ok task.metadataLink task.savePath task.description 3 2
      e2 [] w2 h2
    constructor
    · show (downloadLoop task.metadataLink task.savePath task.description 3 0
        [e0, e1, e2] (initW t0 rl)).1 = true
      rw [heq1, heq2]
      exact h.1
    · show (downloadLoop task.metadataLink task.savePath task.description 3 0
        [e0, e1, e2] (initW t0 rl)).2.writes = [(task.savePath, envBody e2)]
      rw [heq1, heq2, h.2, hw2, hw1]
      rfl
  · rintro rfl rfl rfl rfl rfl
    have hr0 : ∀ w : W, runAttempt w task.metadataLink task.savePath
        (({} : AttemptEnv)).metaResp (({} : AttemptEnv)).metaParsed
        (({} : AttemptEnv)).docResp (({} : AttemptEnv)).redirResp =
        (some (Err.metadataFailed (pyReplaceContent task.metadataLink)),
          metaReqW w (pyReplaceContent task.metadataLink)) := fun w => rfl
    have h1 : wait_if_needed ⟨600, 300, []⟩ 0 = (⟨600, 300, [0]⟩, 0) := by
      rw [wiu600 [] 0 (by unfold prune; norm_num)]
      rfl
    have h2 : wait_if_needed ⟨600, 300, [0]⟩ 2 = (⟨600, 300, [0, 2]⟩, 2) := by
      have hp : prune 300 [0] 2 = [0] :=
        prune_eq_self _ _ _ (by intro t ht; simp at ht; rw [ht]; norm_num)
      rw [wiu600 [0] 2 (by rw [hp]; norm_num)]
      rw [hp]
      rfl
    have h3 : wait_if_needed ⟨600, 300, [0, 2]⟩ 4 = (⟨600, 300, [0, 2, 4]⟩, 4) := by
      have hp : prune 300 [0, 2] 4 = [0, 2] :=
        prune_eq_self _ _ _ (by
          intro t ht
          simp at ht
          rcases ht with rfl | rfl <;> norm_num)
      rw [wiu600 [0, 2] 4 (by rw [hp]; norm_num)]
      rw [hp]
      rfl
    show (downloadLoop task.metadataLink task.savePath task.description 3 0
      [{}, {}, {}] (initW 0 { requests := [] })).2.time = 4
    rw [downloadLoop_cons_retry task.metadataLink task.savePath task.description 3 0
      {} {} [{}] (initW 0 { requests := [] })
      (metaReqW (initW 0 { requests := [] }) (pyReplaceContent task.metadataLink))
      (Err.metadataFailed (pyReplaceContent task.metadataLink)) (hr0 _)]
    rw [downloadLoop_cons_retry task.metadataLink task.savePath task.description 3 1
      {} {} [] _
      (metaReqW _ (pyReplaceContent task.metadataLink))
      (Err.metadataFailed (pyReplaceContent task.metadataLink)) (hr0 _)]
    rw [downloadLoop_cons_last task.metadataLink task.savePath task.description 3 2
      {} _
      (metaReqW _ (pyReplaceContent task.metadataLink))
      (Err.metadataFailed (pyReplaceContent task.metadataLink)) (hr0 _)]
    norm_num [metaReqW, logReq, waitW, initW, h1, h2, h3]

/-- Witness for `download_retry_outcomes`: a task whose three attempts all
fail by metadata transport errors reports failure, writes nothing, and ends
with its clock advanced by the two 2-second backoffs. -/
theorem download_retry_outcomes_witness :
    envOk {} = false ∧
    (download_single_pdf ⟨"ml", "sp", "c", "d", false⟩ {} {} {}
      (initW 0 { requests := [] })).1 = false ∧
    (download_single_pdf ⟨"ml", "sp", "c", "d", false⟩ {} {} {}
      (initW 0 { requests := [] })).2.writes = [] ∧
    (download_single_pdf ⟨"ml", "sp", "c", "d", false⟩ {} {} {}
      (initW 0 { requests := [] })).2.time = 4 := by
  have h := download_retry_outcomes ⟨"ml", "sp", "c", "d", false⟩ {} {} {} 0
    { requests := [] }
  refine ⟨by decide, (h.1 (by decide) (by decide) (by decide)).1,
    (h.1 (by decide) (by decide) (by decide)).2, ?_⟩
  exact h.2.2.2.2 rfl rfl rfl rfl rfl

/- A loop run that reports failure logs a final-failure message carrying
the task description. -/
theorem downloadLoop_false_msg (ml sp desc : String) (mR : Nat)
    (envs : List AttemptEnv) :
    ∀ a w, (downloadLoop ml sp desc mR a envs w).1 = false → envs ≠ [] →
      ∃ er, Msg.failedFinal desc er ∈ (downloadLoop ml sp desc mR a envs w).2.msgs := by
  induction envs with
  | nil => exact fun a w _ hne => absurd rfl hne
  | cons e rest ih =>
    intro a w hfalse _
    rcases hr : runAttempt w ml sp e.metaResp e.metaParsed e.docResp e.redirResp with ⟨res, w1⟩
    rcases res with _ | er
    · rw [downloadLoop_cons_ok ml sp desc mR a e rest w w1 hr] at hfalse
      simp at hfalse
    · rcases rest with _ | ⟨e2, rest2⟩
      · rw [downloadLoop_cons_last ml sp desc mR a e w w1 er hr]
        exact ⟨er, by simp⟩
      · rw [downloadLoop_cons_retry ml sp desc mR a e e2 rest2 w w1 er hr] at hfalse ⊢
        exact ih (a + 1) _ hfalse (by simp)

/- Message-log monotonicity through the dispatch loop. -/
theorem dispatchAll_msgs_mono (jobs : List (DownloadTask × AttemptEnv × AttemptEnv × AttemptEnv)) :
    ∀ w m, m ∈ w.msgs → m ∈ (dispatchAll jobs w).2.msgs := by
  induction jobs with
  | nil => exact fun w m hm => hm
  | cons job rest ih =>
    obtain ⟨t, e0, e1, e2⟩ := job
    intro w m hm
    exact ih (download_single_pdf t e0 e1 e2 w).2 m
      (downloadLoop_msgs_mono t.metadataLink t.savePath t.description 3 [e0, e1, e2] 0 w m hm)

/-- Claim C8: per-task errors never escape the worker: the orchestrator's
collection loop yields exactly one boolean outcome per dispatched task (the
batch continues past failures), and every failed task leaves a visible
final-failure console message carrying that task's description. -/
theorem worker_errors_contained
    (jobs : List (DownloadTask × AttemptEnv × AttemptEnv × AttemptEnv)) (w : W) :
    (dispatchAll jobs w).1.length = jobs.length ∧
    (∀ pr ∈ (jobs.map Prod.fst).zip (dispatchAll jobs w).1, pr.2 = false →
      ∃ er, Msg.failedFinal pr.1.description er ∈ (dispatchAll jobs w).2.msgs) := by
  induction jobs generalizing w with
  | nil =>
    refine ⟨rfl, fun pr hpr _ => ?_⟩
    simp [dispatchAll] at hpr
  | cons job rest ih =>
    obtain ⟨t, e0, e1, e2⟩ := job
    have hd : dispatchAll ((t, e0, e1, e2) :: rest) w =
        ((download_single_pdf t e0 e1 e2 w).1 ::
          (dispatchAll rest (download_single_pdf t e0 e1 e2 w).2).1,
          (dispatchAll rest (download_single_pdf t e0 e1 e2 w).2).2) := rfl
    rw [hd]
    constructor
    · simp only [List.length_cons]
      rw [(ih (download_single_pdf t e0 e1 e2 w).2).1]
    · intro pr hpr hfalse
      rw [List.map_cons, List.zip_cons_cons] at hpr
      rcases List.mem_cons.mp hpr with rfl | hpr2
      · obtain ⟨er, her⟩ := downloadLoop_false_msg t.metadataLink t.savePath
          t.description 3 [e0, e1, e2] 0 w hfalse (by simp)
        exact ⟨er, dispatchAll_msgs_mono rest _ _ her⟩
      · exact (ih (download_single_pdf t e0 e1 e2 w).2).2 pr hpr2 hfalse

/-- Witness for `worker_errors_contained`: one task, all attempts failing,
yields one outcome and a visible final-failure message with its
description. -/
theorem worker_errors_contained_witness :
    (dispatchAll [(⟨"ml", "sp", "c", "d", false⟩, {}, {}, {})]
      (initW 0 { requests := [] })).1.length = 1 ∧
    ∃ er, Msg.failedFinal "d" er ∈
      (dispatchAll [(⟨"ml", "sp", "c", "d", false⟩, {}, {}, {})]
        (initW 0 { requests := [] })).2.msgs := by
  have h := worker_errors_contained [(⟨"ml", "sp", "c", "d", false⟩, {}, {}, {})]
    (initW 0 { requests := [] })
  exact ⟨h.1, h.2 (⟨"ml", "sp", "c", "d", false⟩, false) (by decide) (by decide)⟩

/- `wait_if_needed` always records the entry timestamp as the last tracked
entry; in particular the tracked list is nonempty afterwards. -/
theorem wait_if_needed_records (rl : RateLimiter) (now : ℚ) :
    (wait_if_needed rl now).1.requests.getLast? = some now := by
  unfold wait_if_needed
  simp only []
  split_ifs
  · rfl
  · exact List.getLast?_concat _
  · exact List.getLast?_concat _

/-- Claim C3, amended: on an explicit 429 from the document fetch the worker
reads the Retry-After delay (defaulting to 300 s when absent), logs it,
sleeps it, and fails the attempt with a rate-limited error counting toward
the retry budget — but it does NOT reset the global governor (whose tracked
list stays nonempty); the governor reset on 429 happens only in the
metadata-fetch path `get_document_metadata`, which empties the tracked
list. -/
theorem rate_limited_handling (w : W) (ml sp du : String) (mr dr : HttpResponse)
    (md : DocMetadata) (rresp : Option HttpResponse) (r : HttpResponse)
    (p : Option DocMetadata)
    (hm429 : ¬ mr.status = 429) (hmok : is_success mr.status = true)
    (hdl : md.documentLink = some du) (hd429 : dr.status = 429)
    (hr429 : r.status = 429) :
    (runAttempt w ml sp (some mr) (some md) (some dr) rresp =
        (some Err.rateLimited,
          doc429W (docReqW (metaReqW w (pyReplaceContent ml)) du)
            (dr.retryAfter.getD 300)) ∧
      (runAttempt w ml sp (some mr) (some md) (some dr) rresp).2.rl.requests ≠ []) ∧
    (get_document_metadata w ml (some r) p =
        (none, meta429W (metaReqW w ml) (r.retryAfter.getD 300)) ∧
      (get_document_metadata w ml (some r) p).2.rl.requests = []) := by
  have ha : runAttempt w ml sp (some mr) (some md) (some dr) rresp =
      (some Err.rateLimited,
        doc429W (docReqW (metaReqW w (pyReplaceContent ml)) du)
          (dr.retryAfter.getD 300)) := by
    simp [runAttempt, get_document_metadata, hm429, hmok, hdl, hd429]
  have hb : get_document_metadata w ml (some r) p =
      (none, meta429W (metaReqW w ml) (r.retryAfter.getD 300)) := by
    simp only [get_document_metadata]
    rw [if_pos hr429]
  refine ⟨⟨ha, ?_⟩, hb, ?_⟩
  · rw [ha]
    intro hnil
    have hrec := wait_if_needed_records (metaReqW w (pyReplaceContent ml)).rl
      (metaReqW w (pyReplaceContent ml)).time
    rw [show ((doc429W (docReqW (metaReqW w (pyReplaceContent ml)) du)
        (dr.retryAfter.getD 300)).rl).requests =
      (wait_if_needed (metaReqW w (pyReplaceContent ml)).rl
        (metaReqW w (pyReplaceContent ml)).time).1.requests from rfl] at hnil
    rw [hnil] at hrec
    simp at hrec
  · rw [hb]
    rfl

/-- Witness for `rate_limited_handling`: a 429 document response with
Retry-After 5 leaves the governor's tracked list nonempty, while a 429
metadata response empties it. -/
theorem rate_limited_handling_witness :
    (runAttempt (initW 0 { requests := [] }) "ml" "sp" (some ⟨200, none, none, []⟩)
        (some ⟨some "du", none⟩) (some ⟨429, some 5, none, []⟩) none).2.rl.requests ≠ [] ∧
    (get_document_metadata (initW 0 { requests := [] }) "ml"
        (some ⟨429, some 7, none, []⟩) none).2.rl.requests = [] := by
  have h := rate_limited_handling (initW 0 { requests := [] }) "ml" "sp" "du"
    ⟨200, none, none, []⟩ ⟨429, some 5, none, []⟩ ⟨some "du", none⟩ none
    ⟨429, some 7, none, []⟩ none
    (by decide) (by decide) (by decide) (by decide) (by decide)
  exact ⟨h.1.2, h.2.2⟩

/-- Claim C3, counterexample: on a document-fetch 429 (Retry-After 5) from a fresh
governor, the attempt fails rate-limited and the clock advances 5 seconds,
but the governor's tracked timestamps are NOT discarded — the tracked list
still holds the two admissions, contradicting "resets the global rate
governor (discarding all tracked timestamps)". -/
theorem download_429_no_reset_cex :
    (runAttempt (initW 0 { requests := [] }) "https://doc/api/d1" "sp"
      (some ⟨200, none, none, []⟩) (some ⟨some "https://doc/api/d1/content", none⟩)
      (some ⟨429, some 5, none, []⟩) none).1 = some Err.rateLimited ∧
    (runAttempt (initW 0 { requests := [] }) "https://doc/api/d1" "sp"
      (some ⟨200, none, none, []⟩) (some ⟨some "https://doc/api/d1/content", none⟩)
      (some ⟨429, some 5, none, []⟩) none).2.rl.requests = [0, 0] ∧
    (runAttempt (initW 0 { requests := [] }) "https://doc/api/d1" "sp"
      (some ⟨200, none, none, []⟩) (some ⟨some "https://doc/api/d1/content", none⟩)
      (some ⟨429, some 5, none, []⟩) none).2.time = 5 := by
  decide

/- Concrete inputs for the per-host spacing counterexample: both the
metadata link and the resolved document link live on the document API
host, as in the source's usage (line 212 strips the '/content' suffix from
a document URL to recover the metadata URL on the same host). -/
def c4ml : String :=
  "https://document-api.company-information.service.gov.uk/document/abc"

def c4du : String :=
  "https://document-api.company-information.service.gov.uk/document/abc/content"

/-- Claim C4, counterexample: in a successful attempt the worker issues the
metadata request and the document request back-to-back — both to the
document-API host, both at the same instant — so the program's consecutive
requests to one host identifier are 0 < 0.6 seconds apart: no request path
of the program routes through `rate_limited_request`, whose spacing
guarantee therefore does not apply to issued requests. -/
theorem same_host_spacing_cex :
    ((runAttempt (initW 0 { requests := [] }) c4ml "sp"
        (some ⟨200, none, none, []⟩) (some ⟨some c4du, none⟩)
        (some ⟨200, none, none, [7]⟩) none).2.reqs).length = 2 ∧
    (∀ p ∈ (runAttempt (initW 0 { requests := [] }) c4ml "sp"
        (some ⟨200, none, none, []⟩) (some ⟨some c4du, none⟩)
        (some ⟨200, none, none, [7]⟩) none).2.reqs,
      urlHost p.2.url = "document-api.company-information.service.gov.uk" ∧
      p.1 = 0) ∧
    (0 : ℚ) < MIN_REQUEST_INTERVAL := by
  decide

/-- Claim C7, amended: only an HTTP 302 response (not an arbitrary 3xx) triggers
the redirect handling: when the first document request returns 302 with a
Location header, the worker's second — and last — request of the attempt
targets the redirect URL, carries no authentication credential and only the
accept-type header; any other 3xx status is treated as an attempt failure
by `raise_for_status` and no second request is issued — see the
counterexample. -/
theorem redirect_302_unauthenticated (w : W) (ml sp : String) (mr dr : HttpResponse)
    (md : DocMetadata) (du L : String) (rresp : Option HttpResponse)
    (hm429 : ¬ mr.status = 429) (hmok : is_success mr.status = true)
    (hdl : md.documentLink = some du)
    (h302 : dr.status = 302) (hloc : dr.location = some L) :
    ∃ t, ((runAttempt w ml sp (some mr) (some md) (some dr) rresp).2.reqs).getLast? =
      some (t, ⟨L, false, true⟩) := by
  have hd429 : ¬ dr.status = 429 := by rw [h302]; norm_num
  rcases rresp with _ | r2
  · simp [runAttempt, get_document_metadata, hm429, hmok, hdl, hd429, h302, hloc,
      redirReqW, docReqW, metaReqW, logReq]
  · by_cases hr2 : is_success r2.status = true
    · simp [runAttempt, get_document_metadata, hm429, hmok, hdl, hd429, h302, hloc,
        hr2, writeW, redirReqW, docReqW, metaReqW, logReq]
    · simp [runAttempt, get_document_metadata, hm429, hmok, hdl, hd429, h302, hloc,
        hr2, redirReqW, docReqW, metaReqW, logReq]

/-- Witness for `redirect_302_unauthenticated`: a 302 with a Location to a
pre-signed storage URL makes the second request unauthenticated and
accept-only. -/
theorem redirect_302_unauthenticated_witness :
    ∃ t, ((runAttempt (initW 0 { requests := [] }) "ml" "sp"
        (some ⟨200, none, none, []⟩) (some ⟨some "du", none⟩)
        (some ⟨302, none, some "https://s3/x", []⟩)
        (some ⟨200, none, none, [9]⟩)).2.reqs).getLast? =
      some (t, ⟨"https://s3/x", false, true⟩) :=
  redirect_302_unauthenticated (initW 0 { requests := [] }) "ml" "sp"
    ⟨200, none, none, []⟩ ⟨302, none, some "https://s3/x", []⟩ ⟨some "du", none⟩
    "du" "https://s3/x" (some ⟨200, none, none, [9]⟩)
    (by decide) (by decide) (by decide) (by decide) (by decide)

/-- Claim C7, counterexample: a 301 response carrying a Location header does not
trigger the redirect handling — the worker issues no request at all to the
redirect target and the task fails — refuting "any HTTP 3xx status with a
Location header" leads to a second request. -/
theorem redirect_3xx_cex :
    (download_single_pdf ⟨"https://doc/api/d1", "sp", "c", "d", false⟩
        ⟨some ⟨200, none, none, []⟩, some ⟨some "https://doc/api/d1/content", none⟩,
          some ⟨301, none, some "https://s3.amazonaws.com/bucket/x", []⟩,
          some ⟨200, none, none, [1, 2]⟩⟩
        ⟨some ⟨200, none, none, []⟩, some ⟨some "https://doc/api/d1/content", none⟩,
          some ⟨301, none, some "https://s3.amazonaws.com/bucket/x", []⟩,
          some ⟨200, none, none, [1, 2]⟩⟩
        ⟨some ⟨200, none, none, []⟩, some ⟨some "https://doc/api/d1/content", none⟩,
          some ⟨301, none, some "https://s3.amazonaws.com/bucket/x", []⟩,
          some ⟨200, none, none, [1, 2]⟩⟩
        (initW 0 { requests := [] })).1 = false ∧
    ∀ p ∈ (download_single_pdf ⟨"https://doc/api/d1", "sp", "c", "d", false⟩
        ⟨some ⟨200, none, none, []⟩, some ⟨some "https://doc/api/d1/content", none⟩,
          some ⟨301, none, some "https://s3.amazonaws.com/bucket/x", []⟩,
          some ⟨200, none, none, [1, 2]⟩⟩
        ⟨some ⟨200, none, none, []⟩, some ⟨some "https://doc/api/d1/content", none⟩,
          some ⟨301, none, some "https://s3.amazonaws.com/bucket/x", []⟩,
          some ⟨200, none, none, [1, 2]⟩⟩
        ⟨some ⟨200, none, none, []⟩, some ⟨some "https://doc/api/d1/content", none⟩,
          some ⟨301, none, some "https://s3.amazonaws.com/bucket/x", []⟩,
          some ⟨200, none, none, [1, 2]⟩⟩
        (initW 0 { requests := [] })).2.reqs,
      ¬ p.2.url = "https://s3.amazonaws.com/bucket/x" := by
  decide

/- One filing-history item as consumed by `dumpany` (lines 273-301):
its date, description, the description_values fallback (lines 411-417) and
the optional document-metadata link. -/
structure Filing where
  date : String
  description : String
  descriptionValues : Option String := none
  documentMetadata : Option String := none
  deriving DecidableEq

/- `get_filing_description` (lines 411-417). -/
def get_filing_description (f : Filing) : String :=
  if f.description = "legacy" ∨ f.description = "miscellaneous" then
    f.descriptionValues.getD "unknown_document"
  else f.description

/- `created_at.split('T')[0] if 'T' in created_at else created_at`
(line 332), on the character list so that it is kernel-computable. -/
def upToT : List Char → List Char
  | 'T' :: _ => []
  | c :: rest => c :: upToT rest
  | [] => []

def createdDate (md : DocMetadata) (filingDate : String) : String :=
  let created_at := md.createdAt.getD filingDate
  if created_at.data.contains 'T' then ⟨upToT created_at.data⟩ else created_at

/- `pdf_filings.sort(key=...)` (line 274): a stable sort by the parsed
filing date; `datetime.strptime` on valid ISO dates is order-isomorphic to
a numeric key, modelled by the external parameter `dateKey`. -/
def insertByDate (dateKey : String → Nat) (f : Filing) : List Filing → List Filing
  | [] => [f]
  | g :: rest =>
    if dateKey f.date ≤ dateKey g.date then f :: g :: rest
    else g :: insertByDate dateKey f rest

def sortByDate (dateKey : String → Nat) : List Filing → List Filing
  | [] => []
  | f :: rest => insertByDate dateKey f (sortByDate dateKey rest)

/- `pdf_filings` (lines 273-274): the filings carrying a document-metadata
link, ordered by filing date. -/
def pdfFilings (dateKey : String → Nat) (filings : List Filing) : List Filing :=
  sortByDate dateKey (filings.filter (fun f => f.documentMetadata.isSome))

/- The phase-1 save path (lines 283-287): output_dir joined with
"{filing_date}_{company_name}_{description}.pdf".  Filename sanitisation
(lines 361-380) is an external collaborator per the spec and enters as the
`sanitize` parameter. -/
def savePath1 (outputDir companyName : String) (sanitize : String → String)
    (f : Filing) : String :=
  outputDir ++ "/" ++ f.date ++ "_" ++ companyName ++ "_" ++
    sanitize (get_filing_description f) ++ ".pdf"

/- The first task-building loop (lines 279-301): one task per pdf filing,
skipping those whose destination file already exists. -/
def phase1Tasks (outputDir companyName : String) (sanitize : String → String)
    (existing : List String) (debug : Bool) (pdfF : List Filing) :
    List DownloadTask :=
  pdfF.filterMap (fun f =>
    if existing.contains (savePath1 outputDir companyName sanitize f) then none
    else some ⟨f.documentMetadata.getD "",
      savePath1 outputDir companyName sanitize f, companyName,
      sanitize (get_filing_description f), debug⟩)

/- The second, metadata-phase loop (lines 326-344): it iterates over ALL
pdf filings again, resolves metadata (abstracted by the pure oracle
`resolve`), and appends a task for every filing whose metadata carries a
document link — with the save path named after the resolved creation date
and WITHOUT any destination-exists check. -/
def phase2Tasks (outputDir companyName : String) (sanitize : String → String)
    (resolve : String → Option DocMetadata) (debug : Bool)
    (pdfF : List Filing) : List DownloadTask :=
  pdfF.filterMap (fun f =>
    match resolve (f.documentMetadata.getD "") with
    | none => none
    | some md =>
      match md.documentLink with
      | none => none
      | some doc =>
        some ⟨doc,
          outputDir ++ "/" ++ createdDate md f.date ++ "_" ++ companyName ++ "_" ++
            sanitize (get_filing_description f) ++ ".pdf",
          companyName, sanitize (get_filing_description f), debug⟩)

/- The dispatched task list of one `dumpany` invocation (lines 262-353):
the phase-1 list is built first; if it is empty the function returns early
(lines 303-305) and nothing is dispatched; otherwise the phase-2 loop
appends its tasks to the same list, and `executor.map` (line 352) processes
the combined list. -/
def dumpanyTasks (outputDir companyName : String) (sanitize : String → String)
    (dateKey : String → Nat) (resolve : String → Option DocMetadata)
    (existing : List String) (filings : List Filing) (debug : Bool) :
    List DownloadTask :=
  if phase1Tasks outputDir companyName sanitize existing debug
      (pdfFilings dateKey filings) = [] then []
  else
    phase1Tasks outputDir companyName sanitize existing debug
      (pdfFilings dateKey filings) ++
    phase2Tasks outputDir companyName sanitize resolve debug
      (pdfFilings dateKey filings)

/- One whole retrieval run at the file-set level: the dispatched tasks and
the destination-file set afterwards, `succeeds` telling which dispatched
downloads persist their file. -/
def dumpanyRun (outputDir companyName : String) (sanitize : String → String)
    (dateKey : String → Nat) (resolve : String → Option DocMetadata)
    (succeeds : DownloadTask → Bool) (existing : List String)
    (filings : List Filing) (debug : Bool) :
    List DownloadTask × List String :=
  (dumpanyTasks outputDir companyName sanitize dateKey resolve existing filings debug,
   existing ++
     ((dumpanyTasks outputDir companyName sanitize dateKey resolve existing
       filings debug).filter succeeds).map (fun t => t.savePath))

/- Concrete inputs for the three-filing scenario of claim C1. -/

def c1filings : List Filing :=
  [⟨"2020-01-01", "accounts", none, some "https://doc/api/m1"⟩,
   ⟨"2020-01-02", "accounts", none, some "https://doc/api/m2"⟩,
   ⟨"2020-01-03", "confirmation", none, some "https://doc/api/m3"⟩]

def c1dateKey : String → Nat := fun d =>
  if d = "2020-01-01" then 1 else if d = "2020-01-02" then 2 else 3

def c1resolve : String → Option DocMetadata := fun l =>
  some ⟨some (l ++ "/content"), none⟩

def c1existing : List String :=
  ["dump/ACME/2020-01-01_ACME_accounts.pdf",
   "dump/ACME/2020-01-02_ACME_accounts.pdf"]

def c1tasks : List DownloadTask :=
  dumpanyTasks "dump/ACME" "ACME" id c1dateKey c1resolve c1existing c1filings false

/-- Claim C1: evaluation of the task builder on the claim's scenario — three
filings with metadata links, destinations of items 1 and 2 already present,
all metadata resolving with document links.  The skip-existing check of the
first loop keeps only item 3, but the second (metadata) loop re-adds all
three filings without any destination-exists check, so the pool is handed 4
tasks instead of the single task the specification demands, including one
that re-targets item 1's already-existing destination file. -/
theorem dumpany_scenario_dispatches_four_tasks :
    c1tasks.length = 4 ∧
    (∀ t ∈ phase1Tasks "dump/ACME" "ACME" id c1existing false
        (pdfFilings c1dateKey c1filings),
      t.savePath = "dump/ACME/2020-01-03_ACME_confirmation.pdf") ∧
    (∃ t ∈ c1tasks, t.savePath = "dump/ACME/2020-01-01_ACME_accounts.pdf") := by
  decide

theorem contains_of_mem (l : List String) (a : String) (h : a ∈ l) :
    l.contains a = true :=
  List.elem_iff.mpr h

/-- Claim C6: rerunning the retrieval for the same company against an unchanged
filing list, when every download dispatched by the first run succeeded,
dispatches no tasks on the second run (the first loop skips every filing via
the destination-exists check and the function returns early) and leaves the
destination file set unchanged. -/
theorem dumpany_rerun_idempotent (outputDir companyName : String)
    (sanitize : String → String) (dateKey : String → Nat)
    (resolve : String → Option DocMetadata) (succeeds : DownloadTask → Bool)
    (existing : List String) (filings : List Filing) (debug : Bool)
    (hsucc : ∀ t ∈ (dumpanyRun outputDir companyName sanitize dateKey resolve succeeds
      existing filings debug).1, succeeds t = true) :
    (dumpanyRun outputDir companyName sanitize dateKey resolve succeeds
      (dumpanyRun outputDir companyName sanitize dateKey resolve succeeds
        existing filings debug).2 filings debug).1 = [] ∧
    (dumpanyRun outputDir companyName sanitize dateKey resolve succeeds
      (dumpanyRun outputDir companyName sanitize dateKey resolve succeeds
        existing filings debug).2 filings debug).2 =
      (dumpanyRun outputDir companyName sanitize dateKey resolve succeeds
        existing filings debug).2 := by
  have hA : ∀ f ∈ pdfFilings dateKey filings,
      savePath1 outputDir companyName sanitize f ∈
        (dumpanyRun outputDir companyName sanitize dateKey resolve succeeds
          existing filings debug).2 := by
    intro f hf
    rcases hc : existing.contains (savePath1 outputDir companyName sanitize f) with _ | _
    · have ht : (⟨f.documentMetadata.getD "",
          savePath1 outputDir companyName sanitize f, companyName,
          sanitize (get_filing_description f), debug⟩ : DownloadTask) ∈
          phase1Tasks outputDir companyName sanitize existing debug
            (pdfFilings dateKey filings) := by
        apply List.mem_filterMap.mpr
        refine ⟨f, hf, ?_⟩
        simp [hc]
        intro hmem
        have hct := contains_of_mem existing _ hmem
        rw [hc] at hct
        exact Bool.noConfusion hct
      have hne : phase1Tasks outputDir companyName sanitize existing debug
          (pdfFilings dateKey filings) ≠ [] := List.ne_nil_of_mem ht
      have htasks : (⟨f.documentMetadata.getD "",
          savePath1 outputDir companyName sanitize f, companyName,
          sanitize (get_filing_description f), debug⟩ : DownloadTask) ∈
          (dumpanyRun outputDir companyName sanitize dateKey resolve succeeds
            existing filings debug).1 := by
        show _ ∈ dumpanyTasks outputDir companyName sanitize dateKey resolve
          existing filings debug
        unfold dumpanyTasks
        rw [if_neg hne]
        exact List.mem_append_left _ ht
      have hs := hsucc _ htasks
      show _ ∈ existing ++ _
      apply List.mem_append_right
      apply List.mem_map.mpr
      exact ⟨_, List.mem_filter.mpr ⟨htasks, hs⟩, rfl⟩
    · have hmem : savePath1 outputDir companyName sanitize f ∈ existing :=
        List.elem_iff.mp hc
      show _ ∈ existing ++ _
      exact List.mem_append_left _ hmem
  have hB : phase1Tasks outputDir companyName sanitize
      (dumpanyRun outputDir companyName sanitize dateKey resolve succeeds
        existing filings debug).2 debug (pdfFilings dateKey filings) = [] := by
    apply List.filterMap_eq_nil_iff.mpr
    intro f hf
    simp [hA f hf]
  have hrun2 : dumpanyTasks outputDir companyName sanitize dateKey resolve
      (dumpanyRun outputDir companyName sanitize dateKey resolve succeeds
        existing filings debug).2 filings debug = [] := by
    unfold dumpanyTasks
    rw [hB]
    simp
  constructor
  · exact hrun2
  · show (dumpanyRun outputDir companyName sanitize dateKey resolve succeeds
        existing filings debug).2 ++
      ((dumpanyTasks outputDir companyName sanitize dateKey resolve
        (dumpanyRun outputDir companyName sanitize dateKey resolve succeeds
          existing filings debug).2 filings debug).filter succeeds).map
        (fun t => t.savePath) =
      (dumpanyRun outputDir companyName sanitize dateKey resolve succeeds
        existing filings debug).2
    rw [hrun2]
    simp

/-- Witness for `dumpany_rerun_idempotent`: a one-filing library downloaded
by a first run is entirely skipped by the second. -/
theorem dumpany_rerun_idempotent_witness :
    (dumpanyRun "dump/A" "A" id (fun _ => 0)
      (fun l => some ⟨some (l ++ "/content"), none⟩) (fun _ => true)
      (dumpanyRun "dump/A" "A" id (fun _ => 0)
        (fun l => some ⟨some (l ++ "/content"), none⟩) (fun _ => true) []
        [⟨"2020-01-01", "accounts", none, some "m1"⟩] false).2
      [⟨"2020-01-01", "accounts", none, some "m1"⟩] false).1 = [] :=
  (dumpany_rerun_idempotent "dump/A" "A" id (fun _ => 0)
    (fun l => some ⟨some (l ++ "/content"), none⟩) (fun _ => true) []
    [⟨"2020-01-01", "accounts", none, some "m1"⟩] false
    (fun _ _ => rfl)).1

end Dumpany
